import Mathlib

/-!
Shallow embedding of `src/src/main.cpp` (6-DOF servo controller over
Bluetooth, single-servo active policy).

The firmware's global state is modelled by the structure `St`; hardware
side effects (`Servo.attach`/`detach`/`write`, `digitalWrite`, serial
prints) are recorded as an event trace (`Ev`).  Serial prints carry their
`sprintf` arguments as structured messages (`Msg`).  The two byte
channels (`Serial` and `BTSerial`) are the two values of `Port`.

Real-time throttling (`millis()` comparisons) is abstracted: `moveTick`
is the body of the movement block that runs on a tick where the
`millis() - lastMoveMs >= moveSpeed` guard passes, and `rxStep` is one
iteration of the `BTSerial.available()` read loop.
-/

namespace ServoCtl

/-- `const int NUM_SERVOS = 6;` -/
def NUM_SERVOS : Nat := 6

/-- `const char SERVO_NAMES[] = {'A','B','C','D','E','F'};` -/
def SERVO_NAMES : Fin 6 → Char := !['A', 'B', 'C', 'D', 'E', 'F']

/-- `const int SERVO_PINS[] = {4, 5, 6, 7, 8, 9};` -/
def SERVO_PINS : Fin 6 → Nat := ![4, 5, 6, 7, 8, 9]

/-- `const int minAngles[] = {0, 45, 0, 90, 0, 90};` -/
def minAngles : Fin 6 → Int := ![0, 45, 0, 90, 0, 90]

/-- `const int maxAngles[] = {180, 90, 85, 180, 180, 180};` -/
def maxAngles : Fin 6 → Int := ![180, 90, 85, 180, 180, 180]

/-- The two byte-oriented line channels: `Serial` (USB diagnostic) and
`BTSerial` (Bluetooth remote command channel). -/
inductive Port
  | serial
  | bt
deriving DecidableEq, Repr

/-- A line printed on a serial channel, carrying its `sprintf`/`print`
arguments in structured form. -/
inductive Msg
  | helpHeader
  | helpRange (name : Char) (lo hi : Int)
  | status (entries : List (Char × Int)) (speed : Int)
  | ok (name : Char) (angle lo hi : Int)
  | errRange (name : Char) (lo hi : Int)
  | errUnknown (raw : List Char)
  | done (name : Char) (angle : Int)
  | ready
deriving DecidableEq, Repr

/-- Observable effects: serial prints, `Servo` attach/detach/write calls,
LED writes, and an invocation of `processCommand` from the read loop. -/
inductive Ev
  | msg (port : Port) (m : Msg)
  | attach (i : Fin 6)
  | detach (i : Fin 6)
  | write (i : Fin 6) (angle : Int)
  | led (b : Bool)
  | dispatch (cmd : List Char)
deriving DecidableEq, Repr

/-- The firmware's global mutable state.  `servos[i].attached()` is the
`attached` flag, `activeServo == -1` is `activeServo = none`, and the C
string buffer `btCommandBuffer` with its index `btBufferIndex` is the
list `buffer` (first `btBufferIndex` characters). -/
structure St where
  currentAngles : Fin 6 → Int
  targetAngles : Fin 6 → Int
  attached : Fin 6 → Bool
  activeServo : Option (Fin 6)
  moveSpeed : Int
  buffer : List Char
  led : Bool

/-- State established by `setup()`: every angle at its channel minimum,
no servo attached, no active servo, empty command buffer. -/
def initSt : St where
  currentAngles := minAngles
  targetAngles := minAngles
  attached := fun _ => false
  activeServo := none
  moveSpeed := 20
  buffer := []
  led := false

/-- C `isspace` on the default locale (ASCII). -/
def isSpaceC (c : Char) : Bool :=
  c = ' ' || c = '\t' || c = '\n' || c = Char.ofNat 11 || c = Char.ofNat 12 || c = '\r'

/-- Two's-complement wrap of the target's 16-bit `int` (the sketch runs
on an ATmega4809 with avr-gcc, where `int` is 16 bits): reduce modulo
2^16 into `[-32768, 32767]`. -/
def wrap16 (n : Int) : Int :=
  (n + 32768) % 65536 - 32768

/-- Digit-consuming phase of C `atoi`: accumulate decimal digits in the
target's 16-bit `int` (each `acc * 10 + digit` wraps), stop at the first
non-digit. -/
def atoiDigits : List Char → Int → Int
  | [], acc => acc
  | c :: cs, acc =>
    if c.isDigit then atoiDigits cs (wrap16 (acc * 10 + ((c.toNat : Int) - 48))) else acc

/-- Sign phase of C `atoi` (after whitespace has been skipped); the
negation is also 16-bit. -/
def atoiSigned : List Char → Int
  | [] => 0
  | c :: cs =>
    if c = '-' then wrap16 (- atoiDigits cs 0)
    else if c = '+' then atoiDigits cs 0
    else atoiDigits (c :: cs) 0

/-- C `atoi` on the AVR target: skip leading whitespace, optional sign,
then decimal digits accumulated in a 16-bit `int`; non-numeric input
yields 0, and overflow wraps modulo 2^16 (e.g. `atoi "65716" = 180`). -/
def atoi (s : List Char) : Int :=
  atoiSigned (s.dropWhile isSpaceC)

/-- `detachAllExcept(keepIdx)`: detach every attached servo other than
`keep`, recording one `detach` call per servo actually detached. -/
def detachAllExcept (keep : Fin 6) (s : St) : St × List Ev :=
  ({ s with attached := fun i => if i = keep then s.attached i else false },
   ((List.finRange 6).filter (fun i => i != keep && s.attached i)).map Ev.detach)

/-- `attachIfNeeded(idx)`: attach servo `i` unless already attached. -/
def attachIfNeeded (i : Fin 6) (s : St) : St × List Ev :=
  if s.attached i then (s, [])
  else ({ s with attached := Function.update s.attached i true }, [Ev.attach i])

/-- The `for` loop in `processCommand` locating the servo whose name
matches the (uppercased) first command character. -/
def findServo (u : Char) : Option (Fin 6) :=
  (List.finRange 6).find? (fun i => u == SERVO_NAMES i)

/-- The HELP block: header plus one range line per servo, all printed on
the stream the command arrived on. -/
def helpEvents (out : Port) : List Ev :=
  Ev.msg out Msg.helpHeader ::
    (List.finRange 6).map
      (fun i => Ev.msg out (Msg.helpRange (SERVO_NAMES i) (minAngles i) (maxAngles i)))

/-- The STATUS line: every current angle plus the speed, printed on the
stream the command arrived on. -/
def statusEvent (out : Port) (s : St) : Ev :=
  Ev.msg out
    (Msg.status ((List.finRange 6).map (fun i => (SERVO_NAMES i, s.currentAngles i)))
      s.moveSpeed)

/-- The two ERR-range prints (command stream and mirrored on `Serial`). -/
def rangeErrEvents (i : Fin 6) (out : Port) : List Ev :=
  [Ev.msg out (Msg.errRange (SERVO_NAMES i) (minAngles i) (maxAngles i)),
   Ev.msg Port.serial (Msg.errRange (SERVO_NAMES i) (minAngles i) (maxAngles i))]

/-- The unknown-command reply: `ERR:Unknown cmd '<raw>'` on the stream
the command arrived on. -/
def unknownReply (cmdStr : List Char) (out : Port) (s : St) : St × List Ev × Bool :=
  (s, [Ev.msg out (Msg.errUnknown cmdStr)], true)

/-- The accepted-motion branch of `processCommand`: detach the previously
active servo if different and attached, `detachAllExcept`, `attachIfNeeded`,
set the target and active servo, print the OK line on both streams, light
the LED. -/
def motionOk (i : Fin 6) (a : Int) (out : Port) (s : St) : St × List Ev × Bool :=
  let p1 : St × List Ev :=
    match s.activeServo with
    | some prev =>
      if prev ≠ i ∧ s.attached prev then
        ({ s with attached := Function.update s.attached prev false }, [Ev.detach prev])
      else (s, [])
    | none => (s, [])
  let p2 := detachAllExcept i p1.1
  let p3 := attachIfNeeded i p2.1
  let s4 : St :=
    { p3.1 with
      targetAngles := Function.update p3.1.targetAngles i a
      activeServo := some i
      led := true }
  (s4,
   p1.2 ++ p2.2 ++ p3.2 ++
     [Ev.msg out (Msg.ok (SERVO_NAMES i) a (minAngles i) (maxAngles i)),
      Ev.msg Port.serial (Msg.ok (SERVO_NAMES i) a (minAngles i) (maxAngles i)),
      Ev.led true],
   true)

/-- `processCommand(cmdStr, out)`: classify and execute one command line,
returning the new state, the emitted events, and the C return value. -/
def processCommand (cmdStr : List Char) (out : Port) (s : St) : St × List Ev × Bool :=
  match cmdStr with
  | [] => (s, [], false)
  | c0 :: rest =>
    let u := c0.toUpper
    if u = '?' ∨ u = 'H' then (s, helpEvents out, true)
    else if u = 'G' then (s, [statusEvent out s], true)
    else
      match findServo u with
      | some i =>
        if 0 < rest.length then
          let newAngle := atoi rest
          if minAngles i ≤ newAngle ∧ newAngle ≤ maxAngles i then
            motionOk i newAngle out s
          else
            (s, rangeErrEvents i out, true)
        else unknownReply (c0 :: rest) out s
      | none => unknownReply (c0 :: rest) out s

/-- Body of the smooth-movement block of `loop()` on a tick where the
`millis() - lastMoveMs >= moveSpeed` throttle admits a step.  If the
active servo has not arrived, move its current angle one degree toward
the target and write it; on arrival, detach it, clear the active marker,
clear the LED and print the DONE line on both streams. -/
def moveTick (s : St) : St × List Ev :=
  match s.activeServo with
  | none => (s, [])
  | some i =>
    if s.currentAngles i ≠ s.targetAngles i then
      let a :=
        if s.currentAngles i < s.targetAngles i then s.currentAngles i + 1
        else s.currentAngles i - 1
      ({ s with currentAngles := Function.update s.currentAngles i a }, [Ev.write i a])
    else
      ({ s with
          attached := Function.update s.attached i false
          activeServo := none
          led := false },
       (if s.attached i then [Ev.detach i] else []) ++
         [Ev.led false,
          Ev.msg Port.serial (Msg.done (SERVO_NAMES i) (s.currentAngles i)),
          Ev.msg Port.bt (Msg.done (SERVO_NAMES i) (s.currentAngles i))])

/-- One iteration of the `BTSerial.available()` read loop of `loop()` on
an incoming character: dispatch on terminator (with non-empty buffer),
else append when fewer than 31 characters are buffered, else drop. -/
def rxStep (s : St) (c : Char) : St × List Ev :=
  if c = '\n' ∨ c = '\r' then
    if s.buffer ≠ [] then
      let r := processCommand s.buffer Port.bt s
      ({ r.1 with buffer := [] }, Ev.dispatch s.buffer :: r.2.1)
    else (s, [])
  else if s.buffer.length < 31 then ({ s with buffer := s.buffer ++ [c] }, [])
  else (s, [])

/-- Feed a sequence of incoming characters through the read loop. -/
def rxMany (s : St) : List Char → St × List Ev
  | [] => (s, [])
  | c :: cs =>
    let r := rxStep s c
    let r' := rxMany r.1 cs
    (r'.1, r.2 ++ r'.2)

/-- `moveTick`, state part only. -/
def moveTickSt (s : St) : St := (moveTick s).1

/-- Iterated throttled movement ticks. -/
def iterTick : Nat → St → St
  | 0, s => s
  | n + 1, s => iterTick n (moveTickSt s)

/-- States reachable from `setup()` by receiving characters and by
throttled movement ticks. -/
inductive Reachable : St → Prop
  | init : Reachable initSt
  | rx : ∀ {s : St} (c : Char), Reachable s → Reachable (rxStep s c).1
  | tick : ∀ {s : St}, Reachable s → Reachable (moveTickSt s)

/-- Is a message one of the two that `processCommand` mirrors on
`Serial` (the `OK` acknowledgment and the range error)? -/
def isMirrored : Msg → Bool
  | Msg.ok _ _ _ _ => true
  | Msg.errRange _ _ _ => true
  | _ => false

/-- Is an event a print on the `Serial` diagnostic channel? -/
def isSerialMsg : Ev → Bool
  | Ev.msg Port.serial _ => true
  | _ => false

/-- Is an event an invocation of `processCommand` from the read loop? -/
def isDispatchEv : Ev → Bool
  | Ev.dispatch _ => true
  | _ => false

/-- Power-management invariant: attached servos are exactly tracked by
`activeServo`. -/
def InvPow (s : St) : Prop :=
  (∀ j, s.attached j = true → s.activeServo = some j) ∧
  (∀ c, s.activeServo = some c → s.attached c = true)

/-- Range invariant: every channel's current and target angle lie within
its safe range. -/
def InvRange (s : St) : Prop :=
  ∀ j, minAngles j ≤ s.currentAngles j ∧ s.currentAngles j ≤ maxAngles j ∧
    minAngles j ≤ s.targetAngles j ∧ s.targetAngles j ≤ maxAngles j

/-- The one-degree step of the movement block: increment when the target
is greater, decrement otherwise. -/
def stepAngle (s : St) (i : Fin 6) : Int :=
  if s.currentAngles i < s.targetAngles i then s.currentAngles i + 1 else s.currentAngles i - 1

/-- State after a stepping tick of the movement block. -/
def stepState (s : St) (i : Fin 6) : St :=
  { s with currentAngles := Function.update s.currentAngles i (stepAngle s i) }

/-- State after the arrival tick of the movement block. -/
def arriveState (s : St) (i : Fin 6) : St :=
  { s with attached := Function.update s.attached i false, activeServo := none, led := false }

/-- Events of the arrival tick of the movement block. -/
def arriveEvents (s : St) (i : Fin 6) : List Ev :=
  (if s.attached i then [Ev.detach i] else []) ++
    [Ev.led false, Ev.msg Port.serial (Msg.done (SERVO_NAMES i) (s.currentAngles i)),
     Ev.msg Port.bt (Msg.done (SERVO_NAMES i) (s.currentAngles i))]

end ServoCtl

namespace ServoCtl

/-! ### Basic lemmas about command classification -/

lemma findServo_name {u : Char} {i : Fin 6} (h : findServo u = some i) :
    u = SERVO_NAMES i := by
  have hp := List.find?_some h
  exact eq_of_beq hp

lemma names_not_special :
    ∀ j : Fin 6, ¬(SERVO_NAMES j = '?' ∨ SERVO_NAMES j = 'H') ∧ SERVO_NAMES j ≠ 'G' := by
  decide

lemma findServo_names : ∀ i : Fin 6, findServo (SERVO_NAMES i) = some i := by
  decide

/-- The 16-bit wrap in action: on the AVR target `atoi("65716")` is 180,
so the command `A65716` is an accepted motion to 180, not a range error. -/
lemma atoi_wraps_to_accepted :
    atoi ['6', '5', '7', '1', '6'] = 180 ∧
    (processCommand ['A', '6', '5', '7', '1', '6'] Port.bt initSt).1.activeServo = some 0 ∧
    (processCommand ['A', '6', '5', '7', '1', '6'] Port.bt initSt).1.targetAngles 0 = 180 := by
  decide

/-- Branch selection: a command whose first character names servo `i`,
with a non-empty remainder parsing to an in-range angle, takes the
accepted-motion branch. -/
lemma processCommand_motion {c0 : Char} {rest : List Char} {i : Fin 6}
    (out : Port) (s : St)
    (hf : findServo c0.toUpper = some i) (hne : rest ≠ [])
    (hin : minAngles i ≤ atoi rest ∧ atoi rest ≤ maxAngles i) :
    processCommand (c0 :: rest) out s = motionOk i (atoi rest) out s := by
  have hu := findServo_name hf
  have h1 : ¬(c0.toUpper = '?' ∨ c0.toUpper = 'H') := by
    rw [hu]; exact (names_not_special i).1
  have h2 : c0.toUpper ≠ 'G' := by
    rw [hu]; exact (names_not_special i).2
  have h3 : 0 < rest.length := List.length_pos.mpr hne
  simp only [processCommand, if_neg h1, if_neg h2, hf, if_pos h3, if_pos hin]

/-- Branch selection: an out-of-range angle takes the range-error
branch and leaves the state unchanged. -/
lemma processCommand_rangeErr {c0 : Char} {rest : List Char} {i : Fin 6}
    (out : Port) (s : St)
    (hf : findServo c0.toUpper = some i) (hne : rest ≠ [])
    (hout : ¬(minAngles i ≤ atoi rest ∧ atoi rest ≤ maxAngles i)) :
    processCommand (c0 :: rest) out s = (s, rangeErrEvents i out, true) := by
  have hu := findServo_name hf
  have h1 : ¬(c0.toUpper = '?' ∨ c0.toUpper = 'H') := by
    rw [hu]; exact (names_not_special i).1
  have h2 : c0.toUpper ≠ 'G' := by
    rw [hu]; exact (names_not_special i).2
  have h3 : 0 < rest.length := List.length_pos.mpr hne
  simp only [processCommand, if_neg h1, if_neg h2, hf, if_pos h3, if_neg hout]

/-- Branch selection: a servo letter with nothing after it falls
through the `strlen(cmdStr) > 1` guard into the unknown-command reply. -/
lemma processCommand_bare {c0 : Char} {i : Fin 6} (out : Port) (s : St)
    (hf : findServo c0.toUpper = some i) :
    processCommand [c0] out s = (s, [Ev.msg out (Msg.errUnknown [c0])], true) := by
  have hu := findServo_name hf
  have h1 : ¬(c0.toUpper = '?' ∨ c0.toUpper = 'H') := by
    rw [hu]; exact (names_not_special i).1
  have h2 : c0.toUpper ≠ 'G' := by
    rw [hu]; exact (names_not_special i).2
  simp only [processCommand, if_neg h1, if_neg h2, hf, List.length_nil,
    lt_irrefl, if_false, unknownReply]

/-! ### Projections of the accepted-motion branch -/

lemma motionOk_currentAngles (i : Fin 6) (a : Int) (out : Port) (s : St) :
    (motionOk i a out s).1.currentAngles = s.currentAngles := by
  unfold motionOk detachAllExcept attachIfNeeded
  cases hs : s.activeServo <;> dsimp only <;> split_ifs <;> rfl

lemma motionOk_targetAngles (i : Fin 6) (a : Int) (out : Port) (s : St) :
    (motionOk i a out s).1.targetAngles = Function.update s.targetAngles i a := by
  unfold motionOk detachAllExcept attachIfNeeded
  cases hs : s.activeServo <;> dsimp only <;> split_ifs <;> rfl

lemma motionOk_activeServo (i : Fin 6) (a : Int) (out : Port) (s : St) :
    (motionOk i a out s).1.activeServo = some i := by
  unfold motionOk detachAllExcept attachIfNeeded
  cases hs : s.activeServo <;> dsimp only <;> split_ifs <;> rfl

lemma motionOk_buffer (i : Fin 6) (a : Int) (out : Port) (s : St) :
    (motionOk i a out s).1.buffer = s.buffer := by
  unfold motionOk detachAllExcept attachIfNeeded
  cases hs : s.activeServo <;> dsimp only <;> split_ifs <;> rfl

lemma motionOk_attached (i : Fin 6) (a : Int) (out : Port) (s : St) :
    (motionOk i a out s).1.attached = fun j => decide (j = i) := by
  unfold motionOk detachAllExcept attachIfNeeded
  cases hs : s.activeServo with
  | none =>
    dsimp only
    split_ifs with h <;> funext j <;> by_cases hj : j = i <;>
      simp_all [Function.update]
  | some prev =>
    dsimp only
    split_ifs with h h2 h3 <;> funext j <;> by_cases hj : j = i <;>
      simp_all [Function.update]

end ServoCtl

namespace ServoCtl

/-! ### Shape of `processCommand` outcomes -/

/-- Every run of `processCommand` either leaves the state unchanged or
takes the accepted-motion branch with an in-range angle. -/
lemma processCommand_fst_cases (cmd : List Char) (out : Port) (s : St) :
    (processCommand cmd out s).1 = s ∨
    ∃ i a, minAngles i ≤ a ∧ a ≤ maxAngles i ∧
      (processCommand cmd out s).1 = (motionOk i a out s).1 := by
  cases cmd with
  | nil => left; rfl
  | cons c0 rest =>
    by_cases h1 : c0.toUpper = '?' ∨ c0.toUpper = 'H'
    · left; simp only [processCommand, if_pos h1]
    · by_cases h2 : c0.toUpper = 'G'
      · left; simp only [processCommand, if_neg h1, if_pos h2]
      · cases hf : findServo c0.toUpper with
        | none => left; simp only [processCommand, if_neg h1, if_neg h2, hf, unknownReply]
        | some i =>
          by_cases h3 : 0 < rest.length
          · by_cases h4 : minAngles i ≤ atoi rest ∧ atoi rest ≤ maxAngles i
            · right
              exact ⟨i, atoi rest, h4.1, h4.2, by
                simp only [processCommand, if_neg h1, if_neg h2, hf, if_pos h3, if_pos h4]⟩
            · left
              simp only [processCommand, if_neg h1, if_neg h2, hf, if_pos h3, if_neg h4]
          · left
            simp only [processCommand, if_neg h1, if_neg h2, hf, if_neg h3, unknownReply]

/-- Every run of `processCommand` emits one of six event-list shapes. -/
lemma processCommand_snd_cases (cmd : List Char) (out : Port) (s : St) :
    (processCommand cmd out s).2.1 = [] ∨
    (processCommand cmd out s).2.1 = helpEvents out ∨
    (processCommand cmd out s).2.1 = [statusEvent out s] ∨
    (∃ i a, (processCommand cmd out s).2.1 = (motionOk i a out s).2.1) ∨
    (∃ i, (processCommand cmd out s).2.1 = rangeErrEvents i out) ∨
    (processCommand cmd out s).2.1 = [Ev.msg out (Msg.errUnknown cmd)] := by
  cases cmd with
  | nil => left; rfl
  | cons c0 rest =>
    by_cases h1 : c0.toUpper = '?' ∨ c0.toUpper = 'H'
    · right; left; simp only [processCommand, if_pos h1]
    · by_cases h2 : c0.toUpper = 'G'
      · right; right; left; simp only [processCommand, if_neg h1, if_pos h2]
      · cases hf : findServo c0.toUpper with
        | none =>
          right; right; right; right; right
          simp only [processCommand, if_neg h1, if_neg h2, hf, unknownReply]
        | some i =>
          by_cases h3 : 0 < rest.length
          · by_cases h4 : minAngles i ≤ atoi rest ∧ atoi rest ≤ maxAngles i
            · right; right; right; left
              exact ⟨i, atoi rest, by
                simp only [processCommand, if_neg h1, if_neg h2, hf, if_pos h3, if_pos h4]⟩
            · right; right; right; right; left
              exact ⟨i, by
                simp only [processCommand, if_neg h1, if_neg h2, hf, if_pos h3, if_neg h4]⟩
          · right; right; right; right; right
            simp only [processCommand, if_neg h1, if_neg h2, hf, if_neg h3, unknownReply]

/-- Membership of serial prints in the accepted-motion event list: the
only prints are the two `OK` lines. -/
lemma motionOk_mem_msg (i : Fin 6) (a : Int) (out : Port) (s : St) (p : Port) (m : Msg) :
    Ev.msg p m ∈ (motionOk i a out s).2.1 ↔
      (p = out ∨ p = Port.serial) ∧ m = Msg.ok (SERVO_NAMES i) a (minAngles i) (maxAngles i) := by
  unfold motionOk detachAllExcept attachIfNeeded
  cases hs : s.activeServo <;> dsimp only <;> split_ifs <;>
    simp [List.mem_append, or_and_right] <;> tauto

/-- The accepted-motion branch never records a `dispatch` event. -/
lemma motionOk_no_dispatch (i : Fin 6) (a : Int) (out : Port) (s : St) (c : List Char) :
    Ev.dispatch c ∉ (motionOk i a out s).2.1 := by
  unfold motionOk detachAllExcept attachIfNeeded
  cases hs : s.activeServo <;> dsimp only <;> split_ifs <;>
    simp [List.mem_append]

/-- `processCommand` never records a `dispatch` event. -/
lemma processCommand_no_dispatch (cmd : List Char) (out : Port) (s : St) (c : List Char) :
    Ev.dispatch c ∉ (processCommand cmd out s).2.1 := by
  rcases processCommand_snd_cases cmd out s with h | h | h | ⟨i, a, h⟩ | ⟨i, h⟩ | h <;>
    rw [h]
  · simp
  · simp [helpEvents]
  · simp [statusEvent]
  · exact motionOk_no_dispatch i a out s c
  · simp [rangeErrEvents]
  · simp

end ServoCtl

namespace ServoCtl

/-! ### The power-management and range invariants are inductive -/

lemma invPow_initSt : InvPow initSt := by
  constructor
  · intro j hj; cases hj
  · intro c hc; cases hc

lemma invPow_motionOk (i : Fin 6) (a : Int) (out : Port) (s : St) :
    InvPow (motionOk i a out s).1 := by
  constructor
  · intro j hj
    rw [motionOk_attached] at hj
    rw [motionOk_activeServo]
    simp only [decide_eq_true_eq] at hj
    rw [hj]
  · intro c hc
    rw [motionOk_activeServo] at hc
    rw [motionOk_attached]
    injection hc with hc
    simp [← hc]

lemma invPow_processCommand (cmd : List Char) (out : Port) (s : St)
    (h : InvPow s) : InvPow (processCommand cmd out s).1 := by
  rcases processCommand_fst_cases cmd out s with he | ⟨i, a, _, _, he⟩
  · rw [he]; exact h
  · rw [he]; exact invPow_motionOk i a out s

/-- Characterization of a throttled tick that steps: the active servo's
current angle moves one degree toward the target and is written out. -/
lemma moveTick_step_eq (s : St) (i : Fin 6) (hact : s.activeServo = some i)
    (hne : s.currentAngles i ≠ s.targetAngles i) :
    moveTick s = (stepState s i, [Ev.write i (stepAngle s i)]) := by
  unfold moveTick stepState stepAngle
  rw [hact]
  dsimp only
  rw [if_pos hne]

/-- Characterization of a throttled tick at arrival: detach, clear the
active marker and the LED, print the DONE line on both streams. -/
lemma moveTick_arrival_eq (s : St) (i : Fin 6) (hact : s.activeServo = some i)
    (heq : s.currentAngles i = s.targetAngles i) :
    moveTick s = (arriveState s i, arriveEvents s i) := by
  unfold moveTick arriveState arriveEvents
  rw [hact]
  dsimp only
  rw [if_neg (not_not_intro heq)]

/-- On a tick with no active servo the state is untouched. -/
lemma moveTick_idle_eq (s : St) (hact : s.activeServo = none) :
    moveTick s = (s, []) := by
  unfold moveTick
  rw [hact]

lemma moveTickSt_step (s : St) (i : Fin 6) (hact : s.activeServo = some i)
    (hne : s.currentAngles i ≠ s.targetAngles i) :
    moveTickSt s = stepState s i := by
  unfold moveTickSt
  rw [moveTick_step_eq s i hact hne]

lemma moveTickSt_arrival (s : St) (i : Fin 6) (hact : s.activeServo = some i)
    (heq : s.currentAngles i = s.targetAngles i) :
    moveTickSt s = arriveState s i := by
  unfold moveTickSt
  rw [moveTick_arrival_eq s i hact heq]

lemma moveTickSt_idle (s : St) (hact : s.activeServo = none) :
    moveTickSt s = s := by
  unfold moveTickSt
  rw [moveTick_idle_eq s hact]

lemma invPow_moveTick (s : St) (h : InvPow s) : InvPow (moveTickSt s) := by
  cases hs : s.activeServo with
  | none => rw [moveTickSt_idle s hs]; exact h
  | some i =>
    by_cases hne : s.currentAngles i ≠ s.targetAngles i
    · rw [moveTickSt_step s i hs hne]
      refine ⟨fun j hj => ?_, fun c hc => ?_⟩
      · have hj' : s.attached j = true := hj
        have h1 := h.1 j hj'
        exact h1
      · have hc' : s.activeServo = some c := hc
        exact h.2 c hc'
    · rw [moveTickSt_arrival s i hs (not_not.mp hne)]
      refine ⟨fun j hj => ?_, fun c hc => ?_⟩
      · exfalso
        have hj' : Function.update s.attached i false j = true := hj
        by_cases hj2 : j = i
        · subst hj2; rw [Function.update_same] at hj'; cases hj'
        · rw [Function.update_noteq hj2] at hj'
          have h3 := h.1 j hj'
          rw [hs] at h3
          exact hj2 (Option.some.inj h3).symm
      · exact Option.noConfusion hc

lemma invPow_rxStep (s : St) (c : Char) (h : InvPow s) : InvPow (rxStep s c).1 := by
  unfold rxStep
  split_ifs with h1 h2 h3
  · exact invPow_processCommand s.buffer Port.bt s h
  · exact h
  · exact h
  · exact h

lemma invPow_reachable {s : St} (hr : Reachable s) : InvPow s := by
  induction hr with
  | init => exact invPow_initSt
  | rx c _ ih => exact invPow_rxStep _ c ih
  | tick _ ih => exact invPow_moveTick _ ih

lemma invRange_initSt : InvRange initSt := by
  intro j
  refine ⟨le_refl _, ?_, le_refl _, ?_⟩ <;> revert j <;> decide

lemma invRange_motionOk (i : Fin 6) (a : Int) (out : Port) (s : St)
    (h : InvRange s) (hlo : minAngles i ≤ a) (hhi : a ≤ maxAngles i) :
    InvRange (motionOk i a out s).1 := by
  intro j
  rw [motionOk_currentAngles, motionOk_targetAngles]
  by_cases hj : j = i
  · subst hj
    rw [Function.update_same]
    exact ⟨(h j).1, (h j).2.1, hlo, hhi⟩
  · rw [Function.update_noteq hj]
    exact h j

lemma invRange_processCommand (cmd : List Char) (out : Port) (s : St)
    (h : InvRange s) : InvRange (processCommand cmd out s).1 := by
  rcases processCommand_fst_cases cmd out s with he | ⟨i, a, hlo, hhi, he⟩
  · rw [he]; exact h
  · rw [he]; exact invRange_motionOk i a out s h hlo hhi

lemma stepState_currentAngles (s : St) (i j : Fin 6) :
    (stepState s i).currentAngles j = Function.update s.currentAngles i (stepAngle s i) j :=
  rfl

lemma stepAngle_bounds (s : St) (i : Fin 6) (h : InvRange s)
    (hne : s.currentAngles i ≠ s.targetAngles i) :
    minAngles i ≤ stepAngle s i ∧ stepAngle s i ≤ maxAngles i := by
  obtain ⟨hc1, hc2, ht1, ht2⟩ := h i
  unfold stepAngle
  split_ifs with hlt <;> constructor <;> omega

lemma invRange_moveTick (s : St) (h : InvRange s) : InvRange (moveTickSt s) := by
  cases hs : s.activeServo with
  | none => rw [moveTickSt_idle s hs]; exact h
  | some i =>
    by_cases hne : s.currentAngles i ≠ s.targetAngles i
    · rw [moveTickSt_step s i hs hne]
      intro j
      obtain ⟨hc1, hc2, ht1, ht2⟩ := h j
      obtain ⟨hb1, hb2⟩ := stepAngle_bounds s i h hne
      refine ⟨?_, ?_, ht1, ht2⟩ <;> rw [stepState_currentAngles] <;> by_cases hj : j = i
      · subst hj; rw [Function.update_same]; exact hb1
      · rw [Function.update_noteq hj]; exact hc1
      · subst hj; rw [Function.update_same]; exact hb2
      · rw [Function.update_noteq hj]; exact hc2
    · rw [moveTickSt_arrival s i hs (not_not.mp hne)]
      exact h

lemma invRange_rxStep (s : St) (c : Char) (h : InvRange s) : InvRange (rxStep s c).1 := by
  unfold rxStep
  split_ifs with h1 h2 h3
  · exact invRange_processCommand s.buffer Port.bt s h
  · exact h
  · exact h
  · exact h

lemma invRange_reachable {s : St} (hr : Reachable s) : InvRange s := by
  induction hr with
  | init => exact invRange_initSt
  | rx c _ ih => exact invRange_rxStep _ c ih
  | tick _ ih => exact invRange_moveTick _ ih

/-- Receiving any character sequence preserves reachability. -/
lemma reachable_rxMany (cs : List Char) : ∀ {s : St}, Reachable s → Reachable (rxMany s cs).1 := by
  induction cs with
  | nil => intro s h; exact h
  | cons c cs ih => intro s h; exact ih (Reachable.rx c h)

end ServoCtl

namespace ServoCtl

/-! ### Iterated ticks: convergence of the motion scheduler -/

lemma iterTick_succ_back (n : Nat) (t : St) :
    iterTick (n + 1) t = moveTickSt (iterTick n t) := by
  induction n generalizing t with
  | zero => rfl
  | succ m ih =>
    show iterTick (m + 1) (moveTickSt t) = moveTickSt (iterTick (m + 1) t)
    rw [ih (moveTickSt t)]
    rfl

lemma stepAngle_dist (t : St) (i : Fin 6) (hne : t.currentAngles i ≠ t.targetAngles i) :
    (t.targetAngles i - stepAngle t i).natAbs
      = (t.targetAngles i - t.currentAngles i).natAbs - 1 := by
  unfold stepAngle
  split_ifs <;> omega

/-- After exactly `d` throttled ticks, where `d` is the initial distance,
the active servo's current angle equals its target; the target table, the
attach flags, the buffer and all other channels' current angles are
untouched along the way, and the servo stays active. -/
lemma iter_motion (i : Fin 6) : ∀ (d : Nat) (t : St),
    t.activeServo = some i →
    (t.targetAngles i - t.currentAngles i).natAbs = d →
    (iterTick d t).currentAngles i = t.targetAngles i ∧
    (iterTick d t).targetAngles = t.targetAngles ∧
    (iterTick d t).activeServo = some i ∧
    (iterTick d t).attached = t.attached ∧
    (iterTick d t).buffer = t.buffer ∧
    (∀ j, j ≠ i → (iterTick d t).currentAngles j = t.currentAngles j) := by
  intro d
  induction d with
  | zero =>
    intro t hact hd
    refine ⟨?_, rfl, hact, rfl, rfl, fun j _ => rfl⟩
    show t.currentAngles i = t.targetAngles i
    omega
  | succ d ih =>
    intro t hact hd
    have hne : t.currentAngles i ≠ t.targetAngles i := by
      intro he
      omega
    have hstep := moveTickSt_step t i hact hne
    have h1 : iterTick (d + 1) t = iterTick d (stepState t i) := by
      show iterTick d (moveTickSt t) = _
      rw [hstep]
    have hact' : (stepState t i).activeServo = some i := hact
    have hcur : (stepState t i).currentAngles i = stepAngle t i := by
      rw [stepState_currentAngles, Function.update_same]
    have hd' : ((stepState t i).targetAngles i - (stepState t i).currentAngles i).natAbs = d := by
      rw [hcur]
      show (t.targetAngles i - stepAngle t i).natAbs = d
      rw [stepAngle_dist t i hne]
      omega
    obtain ⟨g1, g2, g3, g4, g5, g6⟩ := ih (stepState t i) hact' hd'
    rw [h1]
    refine ⟨?_, ?_, g3, ?_, ?_, ?_⟩
    · rw [g1]; rfl
    · rw [g2]; rfl
    · rw [g4]; rfl
    · rw [g5]; rfl
    · intro j hj
      rw [g6 j hj, stepState_currentAngles, Function.update_noteq hj]

/-- Partial progress: after `k ≤ d` throttled ticks the servo is still
active with the same target and the remaining distance is `d - k`. -/
lemma iter_partial (i : Fin 6) : ∀ (k : Nat) (t : St),
    t.activeServo = some i →
    k ≤ (t.targetAngles i - t.currentAngles i).natAbs →
    (iterTick k t).activeServo = some i ∧
    (iterTick k t).targetAngles i = t.targetAngles i ∧
    (t.targetAngles i - (iterTick k t).currentAngles i).natAbs
      = (t.targetAngles i - t.currentAngles i).natAbs - k := by
  intro k
  induction k with
  | zero =>
    intro t hact _
    refine ⟨hact, rfl, ?_⟩
    show (t.targetAngles i - t.currentAngles i).natAbs = _
    omega
  | succ k ih =>
    intro t hact hk
    have hne : t.currentAngles i ≠ t.targetAngles i := by
      intro he
      omega
    have hstep := moveTickSt_step t i hact hne
    have h1 : iterTick (k + 1) t = iterTick k (stepState t i) := by
      show iterTick k (moveTickSt t) = _
      rw [hstep]
    have hact' : (stepState t i).activeServo = some i := hact
    have hcur : (stepState t i).currentAngles i = stepAngle t i := by
      rw [stepState_currentAngles, Function.update_same]
    have htar : (stepState t i).targetAngles i = t.targetAngles i := rfl
    have hd' : ((stepState t i).targetAngles i - (stepState t i).currentAngles i).natAbs
        = (t.targetAngles i - t.currentAngles i).natAbs - 1 := by
      rw [hcur, htar]
      exact stepAngle_dist t i hne
    have hk' : k ≤ ((stepState t i).targetAngles i - (stepState t i).currentAngles i).natAbs := by
      rw [hd']
      omega
    obtain ⟨g1, g2, g3⟩ := ih (stepState t i) hact' hk'
    rw [h1]
    refine ⟨g1, ?_, ?_⟩
    · rw [g2]; rfl
    · rw [htar] at g3
      rw [hcur] at g3
      rw [stepAngle_dist t i hne] at g3
      rw [g3]
      omega

end ServoCtl

namespace ServoCtl

/-! ### The receive loop and the command buffer -/

lemma rxMany_append (xs ys : List Char) : ∀ s : St,
    rxMany s (xs ++ ys)
      = ((rxMany (rxMany s xs).1 ys).1, (rxMany s xs).2 ++ (rxMany (rxMany s xs).1 ys).2) := by
  induction xs with
  | nil => intro s; simp [rxMany]
  | cons x xs ih =>
    intro s
    show rxMany s (x :: (xs ++ ys)) = _
    simp only [rxMany]
    rw [ih (rxStep s x).1]
    simp [List.append_assoc]

/-- Feeding only non-terminator characters never dispatches: the buffer
accumulates them, capped at 31 characters, and nothing is emitted. -/
lemma rxMany_nonterm (cs : List Char) (hnt : ∀ c ∈ cs, ¬(c = '\n' ∨ c = '\r')) :
    ∀ s : St, s.buffer.length ≤ 31 →
    rxMany s cs = ({ s with buffer := (s.buffer ++ cs).take 31 }, []) := by
  induction cs with
  | nil =>
    intro s hlen
    have h31 : (s.buffer ++ []).take 31 = s.buffer := by
      rw [List.append_nil]
      exact List.take_of_length_le hlen
    show (s, []) = _
    rw [h31]
  | cons c cs ih =>
    intro s hlen
    have hc : ¬(c = '\n' ∨ c = '\r') := hnt c (List.mem_cons_self c cs)
    have hcs : ∀ x ∈ cs, ¬(x = '\n' ∨ x = '\r') := fun x hx => hnt x (List.mem_cons_of_mem c hx)
    show (let r := rxStep s c; let r' := rxMany r.1 cs; (r'.1, r.2 ++ r'.2)) = _
    by_cases hfull : s.buffer.length < 31
    · have hr : rxStep s c = ({ s with buffer := s.buffer ++ [c] }, []) := by
        unfold rxStep
        rw [if_neg hc, if_pos hfull]
      rw [hr]
      dsimp only
      have hlen' : ({ s with buffer := s.buffer ++ [c] } : St).buffer.length ≤ 31 := by
        show (s.buffer ++ [c]).length ≤ 31
        simp only [List.length_append, List.length_cons, List.length_nil]
        omega
      rw [ih hcs _ hlen']
      show ({ s with buffer := ((s.buffer ++ [c]) ++ cs).take 31 }, ([] : List Ev) ++ []) = _
      rw [List.append_assoc, List.singleton_append, List.append_nil]
    · have heq : s.buffer.length = 31 := by omega
      have hr : rxStep s c = (s, []) := by
        unfold rxStep
        rw [if_neg hc, if_neg hfull]
      rw [hr]
      dsimp only
      rw [ih hcs s hlen]
      show ({ s with buffer := (s.buffer ++ cs).take 31 }, ([] : List Ev) ++ []) = _
      rw [List.append_nil]
      rw [List.take_append_of_le_length (by omega), List.take_append_of_le_length (by omega)]

/-- A terminator with a non-empty buffer dispatches the buffer. -/
lemma rxStep_term (s : St) (c : Char) (hc : c = '\n' ∨ c = '\r') (hne : s.buffer ≠ []) :
    rxStep s c = ({ (processCommand s.buffer Port.bt s).1 with buffer := [] },
      Ev.dispatch s.buffer :: (processCommand s.buffer Port.bt s).2.1) := by
  unfold rxStep
  rw [if_pos hc, if_pos hne]

/-! ### Events of the accepted-motion branch under the invariant -/

/-- When the commanded servo is already the active (hence only attached)
servo, the accepted-motion branch performs no attach or detach at all:
its only events are the two OK prints and the LED write. -/
lemma motionOk_events_active (i : Fin 6) (a : Int) (out : Port) (s : St)
    (hact : s.activeServo = some i) (hatt : s.attached i = true)
    (hoth : ∀ j, j ≠ i → s.attached j = false) :
    (motionOk i a out s).2.1
      = [Ev.msg out (Msg.ok (SERVO_NAMES i) a (minAngles i) (maxAngles i)),
         Ev.msg Port.serial (Msg.ok (SERVO_NAMES i) a (minAngles i) (maxAngles i)),
         Ev.led true] := by
  unfold motionOk detachAllExcept attachIfNeeded
  rw [hact]
  dsimp only
  rw [if_neg (by simp : ¬(i ≠ i ∧ s.attached i = true))]
  dsimp only
  have hfil : (List.finRange 6).filter (fun j => j != i && s.attached j) = [] := by
    apply List.filter_eq_nil_iff.mpr
    intro j _
    by_cases hj : j = i
    · subst hj; simp
    · simp [hj, hoth j hj]
  rw [hfil]
  simp [hatt]

end ServoCtl

namespace ServoCtl

/-- C9: Immediately after startup initialization, every channel's
current and target angle equal that channel's minimum angle, no channel
is powered, and no channel is active (the scheduler starts Idle). -/
theorem claim9_initial_state :
    (∀ i, initSt.currentAngles i = minAngles i ∧ initSt.targetAngles i = minAngles i ∧
      initSt.attached i = false) ∧ initSt.activeServo = none := by
  decide

/-- C1: In every reachable state, at most one servo channel is attached,
and whenever `activeServo` names a channel `c`, channel `c` is powered
and every other channel is unpowered. -/
theorem claim1_single_active_power (s : St) (hr : Reachable s) :
    (∀ j k, s.attached j = true → s.attached k = true → j = k) ∧
    (∀ c, s.activeServo = some c →
      s.attached c = true ∧ ∀ j, j ≠ c → s.attached j = false) := by
  obtain ⟨h1, h2⟩ := invPow_reachable hr
  refine ⟨fun j k hj hk => ?_, fun c hc => ⟨h2 c hc, fun j hj => ?_⟩⟩
  · have e1 := h1 j hj
    have e2 := h1 k hk
    rw [e1] at e2
    exact Option.some.inj e2
  · cases hx : s.attached j with
    | false => rfl
    | true =>
      exfalso
      have e1 := h1 j hx
      rw [hc] at e1
      exact hj (Option.some.inj e1).symm

/-- Witness for C1 at a concrete reachable state: after the accepted
command `A120`, the invariant yields that channel A is attached. -/
theorem claim1_witness :
    (rxMany initSt ['A', '1', '2', '0', '\n']).1.attached 0 = true :=
  ((claim1_single_active_power _ (reachable_rxMany _ Reachable.init)).2 0 (by decide)).1

/-- C3: an out-of-range motion request leaves the whole state unchanged
and emits the ERR reply citing the channel's min and max on both the
arrival stream and the diagnostic stream. -/
theorem claim3_range_error (c0 : Char) (rest : List Char) (i : Fin 6) (a : Int)
    (out : Port) (s : St)
    (hf : findServo c0.toUpper = some i) (hne : rest ≠ []) (ha : atoi rest = a)
    (hout : a < minAngles i ∨ maxAngles i < a) :
    processCommand (c0 :: rest) out s = (s, rangeErrEvents i out, true) := by
  subst ha
  exact processCommand_rangeErr out s hf hne (by omega)

/-- Witness for C3: `B100` with range 45–90 is rejected with no state
change. -/
theorem claim3_witness :
    processCommand ['B', '1', '0', '0'] Port.bt initSt
      = (initSt, rangeErrEvents 1 Port.bt, true) :=
  claim3_range_error 'B' ['1', '0', '0'] 1 100 Port.bt initSt (by decide) (by decide)
    (by decide) (by decide)

/-- C8: a command consisting of exactly one channel letter (upper or
lower case) is answered with the unknown-command error echoing the raw
input and changes no state; it is never treated as a move to angle 0. -/
theorem claim8_bare_letter (c : Char) (i : Fin 6) (h : c.toUpper = SERVO_NAMES i)
    (out : Port) (s : St) :
    processCommand [c] out s = (s, [Ev.msg out (Msg.errUnknown [c])], true) := by
  have hf : findServo c.toUpper = some i := by rw [h]; exact findServo_names i
  exact processCommand_bare out s hf

/-- Witness for C8: bare `a` (channel A, whose range contains 0) is an
unknown command. -/
theorem claim8_witness :
    processCommand ['a'] Port.bt initSt
      = (initSt, [Ev.msg Port.bt (Msg.errUnknown ['a'])], true) :=
  claim8_bare_letter 'a' 0 (by decide) Port.bt initSt

/-- C4: on a throttled tick with an active, not-yet-arrived channel, the
current angle changes by exactly one degree toward the target (increment
iff the target is greater), the distance to the target drops by exactly
one (so it never overshoots), and the current angle stays within the
channel's safe range. -/
theorem claim4_step (s : St) (i : Fin 6) (hr : Reachable s)
    (hact : s.activeServo = some i)
    (hne : s.currentAngles i ≠ s.targetAngles i) :
    (moveTickSt s).currentAngles i
        = s.currentAngles i + (if s.currentAngles i < s.targetAngles i then 1 else -1) ∧
    (s.targetAngles i - (moveTickSt s).currentAngles i).natAbs + 1
        = (s.targetAngles i - s.currentAngles i).natAbs ∧
    minAngles i ≤ (moveTickSt s).currentAngles i ∧
    (moveTickSt s).currentAngles i ≤ maxAngles i := by
  have hrange := invRange_reachable hr
  rw [moveTickSt_step s i hact hne]
  have hcur : (stepState s i).currentAngles i = stepAngle s i := by
    rw [stepState_currentAngles, Function.update_same]
  rw [hcur]
  obtain ⟨hb1, hb2⟩ := stepAngle_bounds s i hrange hne
  refine ⟨?_, ?_, hb1, hb2⟩
  · unfold stepAngle
    split_ifs <;> omega
  · rw [stepAngle_dist s i hne]
    omega

/-- Witness for C4 at a concrete reachable mid-motion state (after the
accepted command `A120`). -/
theorem claim4_witness :
    (moveTickSt (rxMany initSt ['A', '1', '2', '0', '\n']).1).currentAngles 0
      = (rxMany initSt ['A', '1', '2', '0', '\n']).1.currentAngles 0 +
        (if (rxMany initSt ['A', '1', '2', '0', '\n']).1.currentAngles 0
            < (rxMany initSt ['A', '1', '2', '0', '\n']).1.targetAngles 0 then 1 else -1) :=
  (claim4_step _ 0 (reachable_rxMany _ Reachable.init) (by decide) (by decide)).1

/-- C5: an accepted motion request for `c2` arriving while a different
channel `c1` is active and mid-motion powers `c1` down at once, leaves
`c1`'s current and target angles exactly where they were (so `c1` has not
reached its target), and makes `c2` the active channel. -/
theorem claim5_preempt (c0 : Char) (rest : List Char) (c1 c2 : Fin 6) (a : Int) (s : St)
    (hact : s.activeServo = some c1) (h12 : c1 ≠ c2)
    (hmid : s.currentAngles c1 ≠ s.targetAngles c1)
    (hf : findServo c0.toUpper = some c2) (hne : rest ≠ []) (ha : atoi rest = a)
    (hlo : minAngles c2 ≤ a) (hhi : a ≤ maxAngles c2) :
    (processCommand (c0 :: rest) Port.bt s).1.attached c1 = false ∧
    (processCommand (c0 :: rest) Port.bt s).1.currentAngles c1 = s.currentAngles c1 ∧
    (processCommand (c0 :: rest) Port.bt s).1.targetAngles c1 = s.targetAngles c1 ∧
    (processCommand (c0 :: rest) Port.bt s).1.currentAngles c1
        ≠ (processCommand (c0 :: rest) Port.bt s).1.targetAngles c1 ∧
    (processCommand (c0 :: rest) Port.bt s).1.activeServo = some c2 := by
  subst ha
  rw [processCommand_motion Port.bt s hf hne ⟨hlo, hhi⟩]
  have hatt : (motionOk c2 (atoi rest) Port.bt s).1.attached c1 = false := by
    rw [motionOk_attached]
    simp [h12]
  have hcur : (motionOk c2 (atoi rest) Port.bt s).1.currentAngles c1 = s.currentAngles c1 := by
    rw [motionOk_currentAngles]
  have htar : (motionOk c2 (atoi rest) Port.bt s).1.targetAngles c1 = s.targetAngles c1 := by
    rw [motionOk_targetAngles]
    exact Function.update_noteq h12 _ _
  refine ⟨hatt, hcur, htar, ?_, motionOk_activeServo c2 (atoi rest) Port.bt s⟩
  rw [hcur, htar]
  exact hmid

/-- Witness for C5: `B80` preempts the in-flight motion of channel A. -/
theorem claim5_witness :
    (processCommand ['B', '8', '0'] Port.bt (rxMany initSt ['A', '1', '2', '0', '\n']).1).1.attached 0
        = false ∧
    (processCommand ['B', '8', '0'] Port.bt
        (rxMany initSt ['A', '1', '2', '0', '\n']).1).1.activeServo = some 1 :=
  ⟨(claim5_preempt 'B' ['8', '0'] 0 1 80 _ (by decide) (by decide) (by decide) (by decide)
      (by decide) (by decide) (by decide) (by decide)).1,
   (claim5_preempt 'B' ['8', '0'] 0 1 80 _ (by decide) (by decide) (by decide) (by decide)
      (by decide) (by decide) (by decide) (by decide)).2.2.2.2⟩

end ServoCtl

namespace ServoCtl

/-- C10: an accepted in-range motion command addressed to the channel
that is already active retargets it in place: the target is updated, the
channel stays powered and active with no detach or attach call, and
every other channel's current angle, target angle and powered state are
unchanged (as is every current angle). -/
theorem claim10_retarget (c0 : Char) (rest : List Char) (i : Fin 6) (a : Int) (s : St)
    (hr : Reachable s) (hact : s.activeServo = some i)
    (hf : findServo c0.toUpper = some i) (hne : rest ≠ []) (ha : atoi rest = a)
    (hlo : minAngles i ≤ a) (hhi : a ≤ maxAngles i) :
    (processCommand (c0 :: rest) Port.bt s).1.targetAngles i = a ∧
    (processCommand (c0 :: rest) Port.bt s).1.activeServo = some i ∧
    (processCommand (c0 :: rest) Port.bt s).1.attached i = true ∧
    (processCommand (c0 :: rest) Port.bt s).1.currentAngles = s.currentAngles ∧
    (∀ j, j ≠ i →
      (processCommand (c0 :: rest) Port.bt s).1.targetAngles j = s.targetAngles j ∧
      (processCommand (c0 :: rest) Port.bt s).1.attached j = s.attached j) ∧
    Ev.attach i ∉ (processCommand (c0 :: rest) Port.bt s).2.1 ∧
    Ev.detach i ∉ (processCommand (c0 :: rest) Port.bt s).2.1 := by
  have hinv := invPow_reachable hr
  have hatt : s.attached i = true := hinv.2 i hact
  have hoth : ∀ j, j ≠ i → s.attached j = false := by
    intro j hj
    cases hx : s.attached j with
    | false => rfl
    | true =>
      exfalso
      have e1 := hinv.1 j hx
      rw [hact] at e1
      exact hj (Option.some.inj e1).symm
  subst ha
  rw [processCommand_motion Port.bt s hf hne ⟨hlo, hhi⟩]
  have hevs := motionOk_events_active i (atoi rest) Port.bt s hact hatt hoth
  refine ⟨?_, motionOk_activeServo i (atoi rest) Port.bt s, ?_,
    motionOk_currentAngles i (atoi rest) Port.bt s, ?_, ?_, ?_⟩
  · rw [motionOk_targetAngles]
    exact Function.update_same _ _ _
  · rw [motionOk_attached]
    simp
  · intro j hj
    constructor
    · rw [motionOk_targetAngles]
      exact Function.update_noteq hj _ _
    · rw [motionOk_attached, hoth j hj]
      simp [hj]
  · rw [hevs]
    simp
  · rw [hevs]
    simp

/-- Witness for C10: retargeting the already-active channel A from 120
to 90. -/
theorem claim10_witness :
    (processCommand ['A', '9', '0'] Port.bt
        (rxMany initSt ['A', '1', '2', '0', '\n']).1).1.targetAngles 0 = 90 ∧
    (processCommand ['A', '9', '0'] Port.bt
        (rxMany initSt ['A', '1', '2', '0', '\n']).1).1.attached 0 = true :=
  ⟨(claim10_retarget 'A' ['9', '0'] 0 90 _ (reachable_rxMany _ Reachable.init) (by decide)
      (by decide) (by decide) (by decide) (by decide) (by decide)).1,
   (claim10_retarget 'A' ['9', '0'] 0 90 _ (reachable_rxMany _ Reachable.init) (by decide)
      (by decide) (by decide) (by decide) (by decide) (by decide)).2.2.1⟩

/-- C2: once an in-range motion request for channel `i` and angle `a` is
accepted and no further commands arrive, the distance to the target
drops by exactly one on each stepping tick; after `d` throttled ticks
(where `d` is the initial distance) the current angle equals `a`, and on
the next throttled tick the channel is powered down, the active marker
is cleared, and the DONE notice naming the channel and `a` is printed. -/
theorem claim2_motion_completes (c0 : Char) (rest : List Char) (i : Fin 6) (a : Int) (s : St)
    (hf : findServo c0.toUpper = some i) (hne : rest ≠ []) (ha : atoi rest = a)
    (hlo : minAngles i ≤ a) (hhi : a ≤ maxAngles i)
    (s1 : St) (hs1 : s1 = (processCommand (c0 :: rest) Port.bt s).1)
    (d : Nat) (hd : d = (a - s1.currentAngles i).natAbs) :
    (iterTick d s1).currentAngles i = a ∧
    (iterTick (d + 1) s1).activeServo = none ∧
    (iterTick (d + 1) s1).attached i = false ∧
    Ev.msg Port.bt (Msg.done (SERVO_NAMES i) a) ∈ (moveTick (iterTick d s1)).2 ∧
    (∀ k, k < d →
      (a - (iterTick (k + 1) s1).currentAngles i).natAbs + 1
        = (a - (iterTick k s1).currentAngles i).natAbs) := by
  subst ha
  rw [processCommand_motion Port.bt s hf hne ⟨hlo, hhi⟩] at hs1
  have hact1 : s1.activeServo = some i := by
    rw [hs1]; exact motionOk_activeServo i (atoi rest) Port.bt s
  have htar1 : s1.targetAngles i = atoi rest := by
    rw [hs1, motionOk_targetAngles]; exact Function.update_same _ _ _
  have hd' : (s1.targetAngles i - s1.currentAngles i).natAbs = d := by
    rw [htar1, hd]
  obtain ⟨g1, g2, g3, g4, g5, g6⟩ := iter_motion i d s1 hact1 hd'
  have htarF : (iterTick d s1).targetAngles i = s1.targetAngles i := congrFun g2 i
  have hcurF : (iterTick d s1).currentAngles i = atoi rest := by rw [g1, htar1]
  have heqF : (iterTick d s1).currentAngles i = (iterTick d s1).targetAngles i := by
    rw [hcurF, htarF, htar1]
  refine ⟨hcurF, ?_, ?_, ?_, ?_⟩
  · rw [iterTick_succ_back, moveTickSt_arrival _ i g3 heqF]
    rfl
  · rw [iterTick_succ_back, moveTickSt_arrival _ i g3 heqF]
    show Function.update (iterTick d s1).attached i false i = false
    rw [Function.update_same]
  · rw [moveTick_arrival_eq _ i g3 heqF]
    show Ev.msg Port.bt (Msg.done (SERVO_NAMES i) (atoi rest)) ∈ arriveEvents (iterTick d s1) i
    unfold arriveEvents
    rw [hcurF]
    simp
  · intro k hk
    have hp1 := iter_partial i k s1 hact1 (by omega)
    have hp2 := iter_partial i (k + 1) s1 hact1 (by omega)
    rw [htar1] at hp1 hp2
    omega

/-- Witness for C2: `A120` from the initial state arrives at 120 after
120 throttled ticks. -/
theorem claim2_witness :
    (iterTick 120 (processCommand ['A', '1', '2', '0'] Port.bt initSt).1).currentAngles 0
      = 120 :=
  (claim2_motion_completes 'A' ['1', '2', '0'] 0 120 initSt (by decide) (by decide) (by decide)
    (by decide) (by decide) _ rfl 120 (by decide)).1

end ServoCtl

namespace ServoCtl

/-- C6 counterexample: the HELP command received on the remote command
channel produces a non-empty reply on that channel, yet nothing at all is
printed on the primary diagnostic channel — the reply is not mirrored. -/
theorem claim6_counterexample :
    (processCommand ['?'] Port.bt initSt).2.1.filter isSerialMsg = [] ∧
    (processCommand ['?'] Port.bt initSt).2.1 ≠ [] := by
  decide

/-- C6 (amended): for a command received on the remote command channel,
exactly the motion acknowledgment (`OK`) and the range error (`ERR`
range) are mirrored on the primary diagnostic channel; every line
printed on the diagnostic channel is one of those two and also appears
on the arrival channel, while help, status and unknown-command replies
appear only on the arrival channel. -/
theorem claim6_reply_mirroring (cmd : List Char) (s : St) :
    (∀ m, Ev.msg Port.serial m ∈ (processCommand cmd Port.bt s).2.1 →
      isMirrored m = true ∧ Ev.msg Port.bt m ∈ (processCommand cmd Port.bt s).2.1) ∧
    (∀ m, isMirrored m = true → Ev.msg Port.bt m ∈ (processCommand cmd Port.bt s).2.1 →
      Ev.msg Port.serial m ∈ (processCommand cmd Port.bt s).2.1) := by
  rcases processCommand_snd_cases cmd Port.bt s with h | h | h | ⟨i, a, h⟩ | ⟨i, h⟩ | h <;>
    rw [h]
  · constructor
    · intro m hm; exact absurd hm (by simp)
    · intro m _ hm; exact absurd hm (by simp)
  · constructor
    · intro m hm
      exfalso
      simp only [helpEvents, List.mem_cons, List.mem_map] at hm
      rcases hm with h1 | ⟨j, _, h2⟩
      · exact Port.noConfusion (Ev.msg.inj h1).1
      · exact Port.noConfusion (Ev.msg.inj h2.symm).1
    · intro m hmir hm
      exfalso
      simp only [helpEvents, List.mem_cons, List.mem_map] at hm
      rcases hm with h1 | ⟨j, _, h2⟩
      · rw [(Ev.msg.inj h1).2] at hmir
        simp [isMirrored] at hmir
      · rw [(Ev.msg.inj h2.symm).2] at hmir
        simp [isMirrored] at hmir
  · constructor
    · intro m hm
      exfalso
      simp only [statusEvent, List.mem_singleton] at hm
      exact Port.noConfusion (Ev.msg.inj hm).1
    · intro m hmir hm
      exfalso
      simp only [statusEvent, List.mem_singleton] at hm
      rw [(Ev.msg.inj hm).2] at hmir
      simp [isMirrored] at hmir
  · constructor
    · intro m hm
      rw [motionOk_mem_msg] at hm
      obtain ⟨_, hm2⟩ := hm
      subst hm2
      refine ⟨rfl, ?_⟩
      rw [motionOk_mem_msg]
      exact ⟨Or.inl rfl, rfl⟩
    · intro m hmir hm
      rw [motionOk_mem_msg] at hm
      obtain ⟨_, hm2⟩ := hm
      subst hm2
      rw [motionOk_mem_msg]
      exact ⟨Or.inr rfl, rfl⟩
  · constructor
    · intro m hm
      simp only [rangeErrEvents, List.mem_cons, List.not_mem_nil, or_false] at hm
      rcases hm with h1 | h1
      · exact absurd (Ev.msg.inj h1).1 (by simp)
      · rw [(Ev.msg.inj h1).2]
        refine ⟨rfl, ?_⟩
        simp [rangeErrEvents]
    · intro m hmir hm
      simp only [rangeErrEvents, List.mem_cons, List.not_mem_nil, or_false] at hm
      rcases hm with h1 | h1
      · rw [(Ev.msg.inj h1).2]
        simp [rangeErrEvents]
      · exact absurd (Ev.msg.inj h1).1 (by simp)
  · constructor
    · intro m hm
      exfalso
      simp only [List.mem_singleton] at hm
      exact Port.noConfusion (Ev.msg.inj hm).1
    · intro m hmir hm
      exfalso
      simp only [List.mem_singleton] at hm
      rw [(Ev.msg.inj hm).2] at hmir
      simp [isMirrored] at hmir

/-- Witness for C6 (amended): the accepted command `A120` has its OK
acknowledgment mirrored from the remote channel onto `Serial`. -/
theorem claim6_witness :
    Ev.msg Port.serial (Msg.ok 'A' 120 0 180)
      ∈ (processCommand ['A', '1', '2', '0'] Port.bt initSt).2.1 :=
  (claim6_reply_mirroring ['A', '1', '2', '0'] initSt).2 (Msg.ok 'A' 120 0 180)
    (by decide) (by decide)

end ServoCtl

namespace ServoCtl

/-- C7: when 40 non-terminator characters arrive into an empty buffer
followed by a line terminator, exactly one command is dispatched and it
consists of only the first 31 characters (characters 32–40 are discarded
without entering or resetting the buffer); the buffer ends empty. -/
theorem claim7_buffer_overflow (cs : List Char) (t : Char) (s : St)
    (hlen : cs.length = 40) (hnt : ∀ c ∈ cs, ¬(c = '\n' ∨ c = '\r'))
    (ht : t = '\n' ∨ t = '\r') (hbuf : s.buffer = []) :
    (rxMany s (cs ++ [t])).2.filter isDispatchEv = [Ev.dispatch (cs.take 31)] ∧
    (rxMany s (cs ++ [t])).1.buffer = [] := by
  have hphase1 := rxMany_nonterm cs hnt s (by rw [hbuf]; simp)
  rw [hbuf, List.nil_append] at hphase1
  have happ := rxMany_append cs [t] s
  rw [hphase1] at happ
  have htake : (cs.take 31).length = 31 := by
    rw [List.length_take, hlen]
    decide
  have hne31 : cs.take 31 ≠ [] := by
    intro hnil
    rw [hnil] at htake
    exact absurd htake (by decide)
  have hterm := rxStep_term ({ s with buffer := cs.take 31 }) t ht hne31
  have hone : rxMany ({ s with buffer := cs.take 31 } : St) [t]
      = ((rxStep ({ s with buffer := cs.take 31 } : St) t).1,
         (rxStep ({ s with buffer := cs.take 31 } : St) t).2) := by
    show ((rxStep _ t).1, (rxStep _ t).2 ++ []) = _
    rw [List.append_nil]
  rw [hone, hterm] at happ
  rw [happ]
  constructor
  · show (([] : List Ev) ++
        (Ev.dispatch (cs.take 31)
          :: (processCommand (cs.take 31) Port.bt { s with buffer := cs.take 31 }).2.1)).filter
        isDispatchEv = _
    rw [List.nil_append, List.filter_cons_of_pos (by rfl)]
    have hrest : (processCommand (cs.take 31) Port.bt
        ({ s with buffer := cs.take 31 } : St)).2.1.filter isDispatchEv = [] := by
      apply List.filter_eq_nil_iff.mpr
      intro e he
      cases e with
      | dispatch c =>
        exact absurd he (processCommand_no_dispatch _ _ _ _)
      | msg p m => simp [isDispatchEv]
      | attach j => simp [isDispatchEv]
      | detach j => simp [isDispatchEv]
      | write j a => simp [isDispatchEv]
      | led b => simp [isDispatchEv]
    rw [hrest]
  · rfl

/-- Witness for C7: forty `'a'`s then a newline dispatch one 31-character
command. -/
theorem claim7_witness :
    (rxMany initSt (List.replicate 40 'a' ++ ['\n'])).2.filter isDispatchEv
      = [Ev.dispatch ((List.replicate 40 'a').take 31)] ∧
    (rxMany initSt (List.replicate 40 'a' ++ ['\n'])).1.buffer = [] :=
  claim7_buffer_overflow (List.replicate 40 'a') '\n' initSt (by decide) (by decide)
    (Or.inl rfl) rfl

end ServoCtl
